import Mathlib

/-!
Shallow embedding of the inventory-alert server.

The embedding follows `src/unnamed/part_002` (the fetch-based variant with a
shared `MANAGER_KEY`, the cooldown map, the Google-Sheets-backed event log,
the `/manager`, `/manager.csv` and `/checklist` views); `src/server.js`
duplicates the same helper functions and `/alert` control flow, so the
definitions below cover both where the claims cite both.

External effects are represented by oracles passed as arguments:
`PushOutcome` stands for what the `fetch` to the push API does,
`SheetReadOutcome` for what `sheets.spreadsheets.values.get` returns, and a
`parse : String → Option UTCDate` function for what `new Date(string)`
yields (`none` when `Number.isNaN(d.getTime())`, i.e. the string does not
parse to a valid date).  Timestamps (`Date.now()`) are `Int` milliseconds.
-/

/-! ## JS character and string primitives used by the helpers -/

/-- JS `\w` character class: `[A-Za-z0-9_]`, as used by the regex
`/\w\S*/g` inside `prettifyText`. -/
def isWordChar (c : Char) : Bool := c.isAlpha || c.isDigit || c == '_'

/-- JS `\s` (ASCII part): the characters that end a `\S*` run in the
`prettifyText` regex. -/
def isJsSpace (c : Char) : Bool :=
  c == ' ' || c == '\t' || c == '\n' || c == '\r' || c == '\x0b' || c == '\x0c'

/-- One character of `input.replace(/_/g, " ")`. -/
def underscoreToSpace (c : Char) : Char := if c == '_' then ' ' else c

/-- JS `String.prototype.toLowerCase()` (ASCII letters). -/
def strToLower (s : String) : String := String.mk (s.data.map Char.toLower)

/-- `needle` is an initial segment of the character list. -/
def leadsWith : List Char → List Char → Bool
  | [], _ => true
  | _ :: _, [] => false
  | a :: as, b :: bs => a == b && leadsWith as bs

/-- Does the character list contain `needle` as a contiguous run? -/
def hasSub (needle : List Char) : List Char → Bool
  | [] => needle.isEmpty
  | c :: cs => leadsWith needle (c :: cs) || hasSub needle cs

/-- Substring test on strings (used to embed regex alternation tests). -/
def strContains (hay needle : String) : Bool := hasSub needle.data hay.data

/-- JS `Array.prototype.join(sep)`. -/
def joinWith (sep : String) : List String → String
  | [] => ""
  | [x] => x
  | x :: y :: xs => x ++ sep ++ joinWith sep (y :: xs)

/-! ## prettifyText (src/unnamed/part_002 lines 162-168, src/server.js 120-126)

```js
function prettifyText(input = "") {
  return input
    .replace(/_/g, " ")
    .replace(/\w\S*/g, (w) =>
      w.charAt(0).toUpperCase() + w.slice(1).toLowerCase()
    );
}
```

The global regex `/\w\S*/g` scans left to right: a match starts at the
first unconsumed `\w` character and extends over all following
non-whitespace characters; the replacement uppercases the match's first
character and lowercases the rest.  `titleScanAux` performs the same scan
with a flag saying whether the scanner is inside a match. -/

def titleScanAux : Bool → List Char → List Char
  | _, [] => []
  | inWord, c :: cs =>
    if isJsSpace c then c :: titleScanAux false cs
    else if inWord then c.toLower :: titleScanAux true cs
    else if isWordChar c then c.toUpper :: titleScanAux true cs
    else c :: titleScanAux false cs

def prettifyText (input : String) : String :=
  String.mk (titleScanAux false (input.data.map underscoreToSpace))

/-! Spec-side normalizer, for the refinement comparison of claim C7. -/

/-- Uppercase the first character of a word, lowercase the rest. -/
def capitalizeChars : List Char → List Char
  | [] => []
  | c :: cs => c.toUpper :: cs.map Char.toLower

def capitalizeWord (w : String) : String := String.mk (capitalizeChars w.data)

/-- Split on each space character (semantics of `String.split(" ")`). -/
def splitOnSpaceChar : List Char → List (List Char)
  | [] => [[]]
  | c :: cs =>
    match splitOnSpaceChar cs with
    | [] => [[]]
    | w :: ws => if c == ' ' then [] :: w :: ws else (c :: w) :: ws

/-- Modelled from the spec: "replace separators with spaces, then uppercase
the first letter of each whitespace-delimited word and lowercase the rest"
(§4.1).  The first letter of a word is read as its first character, the
rest of the word as everything after it. -/
def specNormalize (s : String) : String :=
  joinWith " "
    ((splitOnSpaceChar (s.data.map underscoreToSpace)).map
      (fun w => String.mk (capitalizeChars w)))

/-! ## isSameUTCDay (src/unnamed/part_002 lines 171-180, src/server.js 128-136)

```js
function isSameUTCDay(timestamp, refDate = new Date()) {
  const d = new Date(timestamp);
  if (Number.isNaN(d.getTime())) return false;
  return (
    d.getUTCFullYear() === refDate.getUTCFullYear() &&
    d.getUTCMonth() === refDate.getUTCMonth() &&
    d.getUTCDate() === refDate.getUTCDate()
  );
}
```
-/

/-- The UTC calendar components `getUTCFullYear / getUTCMonth / getUTCDate`
of a valid JS date. -/
structure UTCDate where
  year : Int
  month : Nat
  day : Nat
deriving DecidableEq, Repr

/-- `parse` stands for `new Date(string)`: `none` when the resulting date is
invalid (`Number.isNaN(d.getTime())`). -/
def isSameUTCDay (parse : String → Option UTCDate) (timestamp : String)
    (refDate : UTCDate) : Bool :=
  match parse timestamp with
  | none => false
  | some d => d.year == refDate.year && d.month == refDate.month && d.day == refDate.day

/-! ## csvEscape (src/unnamed/part_002 lines 183-186, src/server.js 138-141)

```js
function csvEscape(value = "") {
  const str = String(value ?? "");
  return `"${str.replace(/"/g, '""')}"`;
}
```
-/

/-- `str.replace(/"/g, '""')` character by character. -/
def escapeQuotesChars : List Char → List Char
  | [] => []
  | c :: cs =>
    if c == '"' then '"' :: '"' :: escapeQuotesChars cs
    else c :: escapeQuotesChars cs

def csvEscape (value : String) : String :=
  "\"" ++ String.mk (escapeQuotesChars value.data) ++ "\""

/-! ## The event log (Google Sheets client) -/

/-- One row of the manager views, as produced by `getRecentAlertsFromSheet`'s
destructuring `const [timestamp = "", item = "", qty = "", location = "",
ip = "", userAgent = ""] = r`. -/
structure AlertEvent where
  timestamp : String
  item : String
  qty : String
  location : String
  ip : String
  userAgent : String
deriving DecidableEq, Repr

def rowToEvent (r : List String) : AlertEvent :=
  { timestamp := r.getD 0 ""
    item := r.getD 1 ""
    qty := r.getD 2 ""
    location := r.getD 3 ""
    ip := r.getD 4 ""
    userAgent := r.getD 5 "" }

/-- Oracle for `sheets.spreadsheets.values.get`: `unavailable` covers both a
`null` sheets client (missing `GOOGLE_SERVICE_ACCOUNT_JSON` / `SHEET_ID`)
and a thrown error (both return `[]` through the `catch`); `ok rows` is
`res.data.values || []`. -/
inductive SheetReadOutcome where
  | unavailable
  | ok (rows : List (List String))
deriving DecidableEq, Repr

/-- `getRecentAlertsFromSheet(limit)` (src/unnamed/part_002 lines 249-288).
`rows.slice(-limit)` keeps the last `limit` rows, except that JS normalizes
`-0` to `+0`, so `slice(-0) = slice(0)` keeps every row; `.reverse()` puts
the latest row first. -/
def getRecentAlertsFromSheet (limit : Nat) (outcome : SheetReadOutcome) :
    List AlertEvent :=
  match outcome with
  | .unavailable => []
  | .ok rows =>
    if rows.isEmpty then []
    else
      let recent := if limit == 0 then rows else rows.drop (rows.length - limit)
      (recent.map rowToEvent).reverse

/-- `alerts.filter((a) => isSameUTCDay(a.timestamp, now))`. -/
def filterToday (parse : String → Option UTCDate) (now : UTCDate)
    (alerts : List AlertEvent) : List AlertEvent :=
  alerts.filter (fun a => isSameUTCDay parse a.timestamp now)

/-- `(req.query.range || "today").toLowerCase()` — a missing or empty
`range` query parameter falls back to `"today"`. -/
def rangeParamOf (range : Option String) : String :=
  strToLower (match range with
    | none => "today"
    | some r => if r == "" then "today" else r)

/-- The alert rows rendered by `app.get("/manager")` after the range filter
(src/unnamed/part_002 lines 639-663): fetch limit 50; `range=all` shows the
fetched rows unfiltered, anything else filters to the current UTC day. -/
def managerAlerts (parse : String → Option UTCDate) (now : UTCDate)
    (range : Option String) (outcome : SheetReadOutcome) : List AlertEvent :=
  let rangeParam := rangeParamOf range
  let alerts := getRecentAlertsFromSheet 50 outcome
  if rangeParam == "all" then alerts else filterToday parse now alerts

/-- The alert rows exported by `app.get("/manager.csv")` (lines 920-947):
fetch limit 500; filtered to today unless `range=all`. -/
def managerCsvAlerts (parse : String → Option UTCDate) (now : UTCDate)
    (range : Option String) (outcome : SheetReadOutcome) : List AlertEvent :=
  let rangeParam := rangeParamOf range
  let alerts := getRecentAlertsFromSheet 500 outcome
  if rangeParam != "all" then filterToday parse now alerts else alerts

/-! ## Checklist view (src/unnamed/part_002 lines 475-498) -/

/-- `/(low|running|out|empty|critical)/i.test(a.qty || "")`: the pattern has
no anchors, so it tests for a case-insensitive occurrence of one of the five
alternatives anywhere in the status text. -/
def matchesLowPattern (qty : String) : Bool :=
  let s := strToLower qty
  strContains s "low" || strContains s "running" || strContains s "out" ||
    strContains s "empty" || strContains s "critical"

/-- `` `${a.item || ""}|${a.location || ""}` `` (for string fields `x || ""`
is the identity). -/
def checklistKey (a : AlertEvent) : String := a.item ++ "|" ++ a.location

/-- The `byKey` map loop: iterate in order, keep an event only if its key
was not seen before (`if (!byKey.has(key)) byKey.set(key, a)`); JS `Map`
preserves insertion order, so `Array.from(byKey.values())` lists the kept
events in their original order. -/
def dedupGo (seen : List String) : List AlertEvent → List AlertEvent
  | [] => []
  | a :: rest =>
    if seen.contains (checklistKey a) then dedupGo seen rest
    else a :: dedupGo (checklistKey a :: seen) rest

/-- The items rendered by `app.get("/checklist")`: fetch limit 200, keep
today's rows, keep rows matching the low pattern, deduplicate by
item|location keeping the first (newest) hit. -/
def checklistItems (parse : String → Option UTCDate) (now : UTCDate)
    (outcome : SheetReadOutcome) : List AlertEvent :=
  let alerts := getRecentAlertsFromSheet 200 outcome
  let todays := filterToday parse now alerts
  let lowAlerts := todays.filter (fun a => matchesLowPattern a.qty)
  dedupGo [] lowAlerts

/-! ## CSV body (src/unnamed/part_002 lines 928-949) -/

def csvHeaderFields : List String :=
  ["Time", "Item", "Status", "Location", "IP", "User Agent"]

/-- One data row of the export (for string fields `x || ""` is the
identity). -/
def csvRow (a : AlertEvent) : String :=
  joinWith ","
    [csvEscape a.timestamp, csvEscape a.item, csvEscape a.qty,
      csvEscape a.location, csvEscape a.ip, csvEscape a.userAgent]

/-- `csv.join("\r\n")` over the header line followed by the data rows. -/
def managerCsvString (alerts : List AlertEvent) : String :=
  joinWith "\r\n" (joinWith "," (csvHeaderFields.map csvEscape) :: alerts.map csvRow)

/-! ## Cooldown gate (src/unnamed/part_002 lines 154-157 and 304-308) -/

/-- `const COOLDOWN_MS = 60 * 1000`. -/
def COOLDOWN_MS : Int := 60 * 1000

/-- `` const key = `${item}|${location || ""}` `` (for strings
`location || ""` is the identity). -/
def cooldownKey (item location : String) : String := item ++ "|" ++ location

/-- `lastAlertByKey[key] || 0`: the in-memory map, absent key read as 0. -/
def lastFired (m : List (String × Int)) (key : String) : Int :=
  (m.lookup key).getD 0

/-- `const isRateLimited = now - last < COOLDOWN_MS`. -/
def isRateLimited (m : List (String × Int)) (key : String) (now : Int) : Bool :=
  now - lastFired m key < COOLDOWN_MS

/-- `lastAlertByKey[key] = now`. -/
def recordFired (m : List (String × Int)) (key : String) (now : Int) :
    List (String × Int) :=
  (key, now) :: m

/-! ## The /alert handler (src/unnamed/part_002 lines 296-471)

The handler's external effects are summarised by `AlertResult`.  The
`PushOutcome` oracle says what the `fetch` to the push API would do if
reached: `netError` is a rejected promise (network failure, also covering a
failing `response.text()`), which the route's `catch` turns into a 500
without reaching the log append; `completed ok parses` is a received
response with `response.ok` status flag `ok` whose body `JSON.parse`s iff
`parses` — both error cases are only logged to the console and the handler
continues.  `logAlertToSheet` never throws (it catches internally), so the
log step is summarised by whether it was invoked. -/

inductive PushOutcome where
  | netError
  | completed (ok : Bool) (parses : Bool)
deriving DecidableEq, Repr

def PushOutcome.isCompleted : PushOutcome → Bool
  | .netError => false
  | .completed _ _ => true

structure AlertResult where
  /-- a `fetch` to the push API was initiated -/
  pushAttempted : Bool
  /-- the `fetch` completed without throwing (a response was received) -/
  pushPerformed : Bool
  /-- number of `logAlertToSheet` invocations -/
  logAttempts : Nat
  /-- HTTP status of the response sent to the staff member -/
  status : Nat
  /-- `lastAlertByKey` after the request -/
  cooldownMap : List (String × Int)
deriving DecidableEq, Repr

/-- Big-step summary of `app.get("/alert")`.  `cfg` is the truth of
`ONESIGNAL_APP_ID && ONESIGNAL_API_KEY`; `m` is `lastAlertByKey` before the
request; `now` is `Date.now()`.  Branches, in source order:
missing config → skip push, log, 200; cooldown active → skip push, log,
200; otherwise push: a thrown `fetch` jumps to the route `catch` (500,
reaching neither `lastAlertByKey[key] = now` nor the log append), while a received
response (any status, any body) records the timestamp, logs, and sends the
confirmation page. -/
def alertHandler (cfg : Bool) (m : List (String × Int)) (item location : String)
    (now : Int) (push : PushOutcome) : AlertResult :=
  let key := cooldownKey item location
  let rl := isRateLimited m key now
  if cfg == false then
    { pushAttempted := false, pushPerformed := false, logAttempts := 1
      status := 200, cooldownMap := m }
  else if rl then
    { pushAttempted := false, pushPerformed := false, logAttempts := 1
      status := 200, cooldownMap := m }
  else
    match push with
    | .netError =>
      { pushAttempted := true, pushPerformed := false, logAttempts := 0
        status := 500, cooldownMap := m }
    | .completed _ _ =>
      { pushAttempted := true, pushPerformed := true, logAttempts := 1
        status := 200, cooldownMap := recordFired m key now }

/-! ## Manager access gate (src/unnamed/part_002 lines 582-637 and 908-918) -/

inductive GateResult where
  | allow
  | deny401
deriving DecidableEq, Repr

/-- The key check at the top of `app.get("/manager")`:
`providedKey = (req.query.key || "").toString()`; if `MANAGER_KEY` is a
nonempty string, a mismatch returns 401, a match proceeds; if it is unset
(empty), the handler warns and proceeds for every request. -/
def managerGateCheck (managerKey : String) (queryKey : Option String) : GateResult :=
  let providedKey := queryKey.getD ""
  if managerKey != "" then
    if providedKey != managerKey then .deny401 else .allow
  else .allow

/-- The identical key check at the top of `app.get("/manager.csv")`. -/
def managerCsvGateCheck (managerKey : String) (queryKey : Option String) : GateResult :=
  let providedKey := queryKey.getD ""
  if managerKey != "" then
    if providedKey != managerKey then .deny401 else .allow
  else .allow

/-! ## Helper lemmas -/

lemma map_underscoreToSpace_id (l : List Char) (h : ∀ c ∈ l, c ≠ '_') :
    l.map underscoreToSpace = l := by
  induction l with
  | nil => rfl
  | cons c cs ih =>
    have hc : c ≠ '_' := h c (List.mem_cons_self c cs)
    simp only [List.map_cons, underscoreToSpace]
    rw [if_neg (by simpa using hc), ih (fun d hd => h d (List.mem_cons_of_mem c hd))]

lemma titleScanAux_append_space (xs : List Char) :
    ∀ (b : Bool) (ys : List Char),
      titleScanAux b (xs ++ ' ' :: ys) = titleScanAux b xs ++ ' ' :: titleScanAux false ys := by
  induction xs with
  | nil =>
    intro b ys
    simp [titleScanAux, isJsSpace]
  | cons c cs ih =>
    intro b ys
    simp only [List.cons_append, titleScanAux]
    by_cases h1 : isJsSpace c = true
    · simp [h1, ih]
    · simp only [Bool.not_eq_true] at h1
      cases b with
      | true => simp [h1, ih]
      | false =>
        by_cases h3 : isWordChar c = true
        · simp [h1, h3, ih]
        · simp only [Bool.not_eq_true] at h3
          simp [h1, h3, ih]

lemma titleScanAux_inWord (cs : List Char) (h : ∀ c ∈ cs, isJsSpace c = false) :
    titleScanAux true cs = cs.map Char.toLower := by
  induction cs with
  | nil => rfl
  | cons c rest ih =>
    have hc : isJsSpace c = false := h c (List.mem_cons_self c rest)
    simp [titleScanAux, hc, ih (fun d hd => h d (List.mem_cons_of_mem c hd))]

lemma dedupGo_filter (k : String) :
    ∀ (seen : List String) (l : List AlertEvent),
      (dedupGo seen l).filter (fun a => checklistKey a == k) =
        if k ∈ seen then []
        else (l.filter (fun a => checklistKey a == k)).take 1 := by
  intro seen l
  induction l generalizing seen with
  | nil => simp [dedupGo]
  | cons a rest ih =>
    rw [dedupGo]
    by_cases ha : checklistKey a ∈ seen
    · rw [if_pos (by simpa using ha), ih seen, List.filter_cons]
      by_cases hk : k ∈ seen
      · simp [hk]
      · have hne : (checklistKey a == k) = false := by
          simp only [beq_eq_false_iff_ne]
          intro he
          exact hk (he ▸ ha)
        simp [hk, hne]
    · rw [if_neg (by simpa using ha), List.filter_cons, List.filter_cons]
      by_cases hk : checklistKey a = k
      · subst hk
        simp only [beq_self_eq_true, if_pos]
        rw [ih (checklistKey a :: seen)]
        simp [ha]
      · have hne : (checklistKey a == k) = false := by simpa using hk
        simp only [hne, Bool.false_eq_true, if_neg, not_false_eq_true]
        rw [ih (checklistKey a :: seen)]
        have hmem : (k ∈ checklistKey a :: seen) ↔ k ∈ seen := by
          constructor
          · intro h
            rcases List.mem_cons.mp h with h | h
            · exact absurd h.symm hk
            · exact h
          · exact List.mem_cons_of_mem _
        simp only [hmem]

lemma mem_dedupGo {a : AlertEvent} :
    ∀ (seen : List String) (l : List AlertEvent), a ∈ dedupGo seen l → a ∈ l := by
  intro seen l
  induction l generalizing seen with
  | nil => simp [dedupGo]
  | cons b rest ih =>
    intro h
    rw [dedupGo] at h
    by_cases hb : seen.contains (checklistKey b) = true
    · rw [if_pos hb] at h
      exact List.mem_cons_of_mem b (ih seen h)
    · rw [if_neg hb] at h
      rcases List.mem_cons.mp h with h | h
      · exact h ▸ List.mem_cons_self b rest
      · exact List.mem_cons_of_mem b (ih _ h)

/-! ## Claims about the cooldown gate and the /alert handler -/

/-- Claim C1 (confirmed): in the `/alert` handler the notification is
suppressed (`isRateLimited` is true) exactly when
`now - lastFired(key) < 60000` ms; an absent key is read as the long-ago
timestamp 0, so the first-ever request for a key (at any realistic clock
value, i.e. at least 60000 ms after the epoch) is never suppressed; a
second request for the key strictly within 60 s of a recorded dispatch is
suppressed; a request 60 s or more after the recorded dispatch is not. -/
theorem cooldown_suppression_rule :
    (∀ (m : List (String × Int)) (key : String) (now : Int),
      isRateLimited m key now = true ↔ now - lastFired m key < COOLDOWN_MS) ∧
    (∀ (m : List (String × Int)) (key : String) (now : Int),
      m.lookup key = none → COOLDOWN_MS ≤ now → isRateLimited m key now = false) ∧
    (∀ (m : List (String × Int)) (item location : String) (t now : Int),
      now - t < COOLDOWN_MS →
      isRateLimited (recordFired m (cooldownKey item location) t)
        (cooldownKey item location) now = true) ∧
    (∀ (m : List (String × Int)) (item location : String) (t now : Int),
      COOLDOWN_MS ≤ now - t →
      isRateLimited (recordFired m (cooldownKey item location) t)
        (cooldownKey item location) now = false) := by
  refine ⟨?_, ?_, ?_, ?_⟩
  · intro m key now
    simp [isRateLimited]
  · intro m key now hnone hge
    simp only [isRateLimited, lastFired, hnone, Option.getD_none,
      decide_eq_false_iff_not, not_lt, Int.sub_zero]
    exact hge
  · intro m item location t now h
    simp only [isRateLimited, lastFired, recordFired, List.lookup,
      beq_self_eq_true, Option.getD_some, decide_eq_true_eq]
    exact h
  · intro m item location t now h
    simp only [isRateLimited, lastFired, recordFired, List.lookup,
      beq_self_eq_true, Option.getD_some, decide_eq_false_iff_not, not_lt]
    exact h

/-- Witness for C1: concrete runs of the three scenarios at key
`"milk|walk-in"` with the clock at 60000 ms and a dispatch recorded at
60000 ms. -/
theorem cooldown_suppression_rule_witness :
    isRateLimited [] "milk|walk-in" 60000 = false ∧
    isRateLimited (recordFired [] (cooldownKey "milk" "walk-in") 60000)
      (cooldownKey "milk" "walk-in") 90000 = true ∧
    isRateLimited (recordFired [] (cooldownKey "milk" "walk-in") 60000)
      (cooldownKey "milk" "walk-in") 120000 = false :=
  ⟨cooldown_suppression_rule.2.1 [] "milk|walk-in" 60000 rfl (by decide),
    cooldown_suppression_rule.2.2.1 [] "milk" "walk-in" 60000 90000 (by decide),
    cooldown_suppression_rule.2.2.2 [] "milk" "walk-in" 60000 120000 (by decide)⟩

/-- Counterexample to claim C2 as stated: a non-suppressed `/alert` request
whose push `fetch` rejects (network error) jumps to the route's `catch`
before `logAlertToSheet` is reached, so this request attempts zero log
appends, not exactly one. -/
theorem suppression_logging_claim_cex :
    isRateLimited [] (cooldownKey "milk" "") 100000 = false ∧
    (alertHandler true [] "milk" "" 100000 PushOutcome.netError).logAttempts = 0 := by
  decide

/-- Claim C2 (amended): suppression itself never blocks the logging path —
every request that is suppressed, or skips push for missing configuration,
or whose push dispatch completes without throwing, attempts exactly one
event-log append; and a suppressed request attempts no notification
dispatch while still attempting exactly one log append.  (Only a throwing
push dispatch, handled under C3, aborts the handler before the append.) -/
theorem suppression_never_blocks_logging :
    ∀ (cfg : Bool) (m : List (String × Int)) (item location : String)
      (now : Int) (push : PushOutcome),
      (cfg = false ∨ isRateLimited m (cooldownKey item location) now = true ∨
        push.isCompleted = true →
        (alertHandler cfg m item location now push).logAttempts = 1) ∧
      (isRateLimited m (cooldownKey item location) now = true →
        (alertHandler cfg m item location now push).pushAttempted = false ∧
        (alertHandler cfg m item location now push).logAttempts = 1) := by
  intro cfg m item location now push
  cases cfg with
  | false => simp [alertHandler]
  | true =>
    cases hrl : isRateLimited m (cooldownKey item location) now with
    | true => simp [alertHandler, hrl]
    | false =>
      cases push with
      | netError => simp [alertHandler, hrl, PushOutcome.isCompleted]
      | completed ok parses => simp [alertHandler, hrl, PushOutcome.isCompleted]

/-- Witness for C2 (amended): a suppressed request (clock 50 ms, fresh map,
so `now - 0 < 60000`) still attempts exactly one log append even though the
push oracle would have failed. -/
theorem suppression_never_blocks_logging_witness :
    (alertHandler true [] "milk" "" 50 PushOutcome.netError).pushAttempted = false ∧
    (alertHandler true [] "milk" "" 50 PushOutcome.netError).logAttempts = 1 :=
  (suppression_never_blocks_logging true [] "milk" "" 50 PushOutcome.netError).2
    (by decide)

/-- Counterexample to claim C3 as stated: a network error from the push
dispatch is listed by the claim among the non-fatal failures, but in the
code the rejected `fetch` promise propagates to the route's `catch`: the
handler returns 500 and never attempts the log append. -/
theorem push_failure_claim_cex :
    isRateLimited [] (cooldownKey "cheese" "") 200000 = false ∧
    (alertHandler true [] "cheese" "" 200000 PushOutcome.netError).status = 500 ∧
    (alertHandler true [] "cheese" "" 200000 PushOutcome.netError).logAttempts = 0 := by
  decide

/-- Claim C3 (amended): a push dispatch that completes with a non-success
HTTP status or a malformed (non-JSON) response body is non-fatal: for every
request and every such outcome the handler attempts exactly one log append
and returns the 200 confirmation page — only a thrown network error
produces a 500. -/
theorem push_failure_nonfatal :
    ∀ (cfg : Bool) (m : List (String × Int)) (item location : String)
      (now : Int) (ok parses : Bool),
      (alertHandler cfg m item location now (PushOutcome.completed ok parses)).status = 200 ∧
      (alertHandler cfg m item location now (PushOutcome.completed ok parses)).logAttempts = 1 := by
  intro cfg m item location now ok parses
  cases cfg with
  | false => simp [alertHandler]
  | true =>
    cases hrl : isRateLimited m (cooldownKey item location) now with
    | true => simp [alertHandler, hrl]
    | false => simp [alertHandler, hrl]

/-- Claim C9 (confirmed): the cooldown map entry for the request's key is
set to `now` exactly when a push dispatch was actually performed (the push
branch was reached and the `fetch` completed); a suppressed request, a
request with push skipped for missing configuration, and a request whose
dispatch threw all leave every entry of the map unchanged. -/
theorem cooldown_update_discipline :
    ∀ (cfg : Bool) (m : List (String × Int)) (item location : String)
      (now : Int) (push : PushOutcome),
      (alertHandler cfg m item location now push).pushPerformed =
        (cfg && !(isRateLimited m (cooldownKey item location) now) &&
          push.isCompleted) ∧
      (∀ k : String,
        ((alertHandler cfg m item location now push).cooldownMap).lookup k =
          if (alertHandler cfg m item location now push).pushPerformed = true ∧
              k = cooldownKey item location
          then some now else m.lookup k) := by
  intro cfg m item location now push
  cases cfg with
  | false => simp [alertHandler]
  | true =>
    cases hrl : isRateLimited m (cooldownKey item location) now with
    | true => simp [alertHandler, hrl]
    | false =>
      cases push with
      | netError => simp [alertHandler, hrl, PushOutcome.isCompleted]
      | completed ok parses =>
        refine ⟨by simp [alertHandler, hrl, PushOutcome.isCompleted], ?_⟩
        intro k
        simp only [alertHandler, hrl, Bool.false_eq_true, if_neg,
          recordFired, List.lookup]
        by_cases hk : k = cooldownKey item location
        · subst hk
          simp
        · have : (k == cooldownKey item location) = false := by simpa using hk
          simp [this, hk]

/-! ## Claim about the manager access gate -/

/-- Claim C8 (confirmed): with the manager secret configured (nonempty), a
`/manager` or `/manager.csv` request is served iff its `key` query
parameter equals the secret, and a missing or incorrect key gets a 401;
with the secret unconfigured this variant always warns and allows, so the
gate's result is the same for every request.  Both routes run the identical
check. -/
theorem manager_gate_rule :
    (∀ (secret : String) (queryKey : Option String), secret ≠ "" →
      (managerGateCheck secret queryKey = GateResult.allow ↔
        queryKey.getD "" = secret)) ∧
    (∀ (secret : String) (queryKey : Option String), secret ≠ "" →
      queryKey.getD "" ≠ secret →
      managerGateCheck secret queryKey = GateResult.deny401) ∧
    (∀ queryKey : Option String, managerGateCheck "" queryKey = GateResult.allow) ∧
    (∀ p q : Option String, managerGateCheck "" p = managerGateCheck "" q) ∧
    (∀ (secret : String) (queryKey : Option String),
      managerCsvGateCheck secret queryKey = managerGateCheck secret queryKey) := by
  refine ⟨?_, ?_, ?_, ?_, ?_⟩
  · intro secret queryKey hs
    have hs' : (secret != "") = true := by simpa using hs
    by_cases hp : queryKey.getD "" = secret
    · simp [managerGateCheck, hs', hp]
    · have hp' : (queryKey.getD "" != secret) = true := by simpa using hp
      simp [managerGateCheck, hs', hp', hp]
  · intro secret queryKey hs hp
    have hs' : (secret != "") = true := by simpa using hs
    have hp' : (queryKey.getD "" != secret) = true := by simpa using hp
    simp [managerGateCheck, hs', hp']
  · intro queryKey
    simp [managerGateCheck]
  · intro p q
    simp [managerGateCheck]
  · intro secret queryKey
    rfl

/-- Witness for C8: with secret `"s3cret"`, the matching key is allowed and
a missing key is denied with 401. -/
theorem manager_gate_rule_witness :
    managerGateCheck "s3cret" (some "s3cret") = GateResult.allow ∧
    managerGateCheck "s3cret" none = GateResult.deny401 :=
  ⟨(manager_gate_rule.1 "s3cret" (some "s3cret") (by decide)).mpr rfl,
    manager_gate_rule.2.1 "s3cret" none (by decide) (by decide)⟩

/-! ## Claim about the CSV export -/

/-- Claim C6 (confirmed): the `/manager.csv` body is the quoted header line
`Time,Item,Status,Location,IP,User Agent` followed by one row per fetched
alert, lines joined with CRLF; every field is wrapped in double quotes with
internal double quotes doubled, and in particular the value `Bob"s` is
emitted as the field `"Bob""s"`. -/
theorem manager_csv_format :
    csvEscape "Bob\"s" = "\"Bob\"\"s\"" ∧
    joinWith "," (csvHeaderFields.map csvEscape) =
      "\"Time\",\"Item\",\"Status\",\"Location\",\"IP\",\"User Agent\"" ∧
    (∀ alerts : List AlertEvent,
      managerCsvString alerts =
        joinWith "\r\n"
          ("\"Time\",\"Item\",\"Status\",\"Location\",\"IP\",\"User Agent\"" ::
            alerts.map csvRow)) ∧
    (∀ a : AlertEvent,
      csvRow a = csvEscape a.timestamp ++ "," ++ csvEscape a.item ++ "," ++
        csvEscape a.qty ++ "," ++ csvEscape a.location ++ "," ++
        csvEscape a.ip ++ "," ++ csvEscape a.userAgent) := by
  refine ⟨by decide, by decide, ?_, ?_⟩
  · intro alerts
    rw [managerCsvString,
      show joinWith "," (csvHeaderFields.map csvEscape) =
        "\"Time\",\"Item\",\"Status\",\"Location\",\"IP\",\"User Agent\"" from by decide]
  · intro a
    simp [csvRow, joinWith, String.append_assoc]

/-! ## Claims about the event-log read and the manager range filter -/

lemma getRecent_ok_eq (limit : Nat) (rows : List (List String)) (h : 1 ≤ limit) :
    getRecentAlertsFromSheet limit (SheetReadOutcome.ok rows) =
      ((rows.map rowToEvent).reverse).take limit := by
  have hz : (limit == 0) = false := by
    simp only [beq_eq_false_iff_ne, ne_eq]
    omega
  cases rows with
  | nil => simp [getRecentAlertsFromSheet]
  | cons r rs =>
    simp only [getRecentAlertsFromSheet, List.isEmpty_cons, Bool.false_eq_true,
      if_false, hz]
    rw [List.take_reverse, List.length_map, ← List.map_drop]

lemma managerAlerts_today_eq (parse : String → Option UTCDate) (now : UTCDate)
    (outcome : SheetReadOutcome) :
    managerAlerts parse now (some "today") outcome =
      filterToday parse now (getRecentAlertsFromSheet 50 outcome) := by
  have hc : ((rangeParamOf (some "today")) == "all") = false := by decide
  simp [managerAlerts, hc]

/-- Counterexample to claim C4 as stated: at `limit = 0` the claim promises
"up to 0" rows, but `rows.slice(-0)` in JS is `rows.slice(0)`, the whole
array, so a one-row store yields one row, not zero. -/
theorem recent_limit_claim_cex :
    ¬ ((getRecentAlertsFromSheet 0 (SheetReadOutcome.ok
        [["2025-01-01T00:00:00.000Z", "Milk", "Low", "", "", ""]])).length ≤ 0) := by
  decide

/-- Claim C4 (amended): for every positive `limit`,
`getRecentAlertsFromSheet(limit)` returns up to `limit` most-recently
appended rows, newest first (the last `limit` sheet rows, reversed); an
unreachable or empty store yields the empty sequence; on top of that
ordering, `range=today` in the manager view keeps exactly the rows on the
current UTC day and `range=all` returns all fetched rows, newest first.
(At `limit = 0`, excluded by the amendment, the fetch returns every row.) -/
theorem recent_and_range_filter :
    (∀ limit : Nat, getRecentAlertsFromSheet limit SheetReadOutcome.unavailable = []) ∧
    (∀ limit : Nat, getRecentAlertsFromSheet limit (SheetReadOutcome.ok []) = []) ∧
    (∀ (limit : Nat) (rows : List (List String)), 1 ≤ limit →
      getRecentAlertsFromSheet limit (SheetReadOutcome.ok rows) =
        ((rows.map rowToEvent).reverse).take limit) ∧
    (∀ (limit : Nat) (rows : List (List String)), 1 ≤ limit →
      (getRecentAlertsFromSheet limit (SheetReadOutcome.ok rows)).length ≤ limit) ∧
    (∀ (parse : String → Option UTCDate) (now : UTCDate) (outcome : SheetReadOutcome),
      managerAlerts parse now (some "today") outcome =
        filterToday parse now (getRecentAlertsFromSheet 50 outcome)) ∧
    (∀ (parse : String → Option UTCDate) (now : UTCDate) (outcome : SheetReadOutcome)
      (a : AlertEvent), a ∈ managerAlerts parse now (some "today") outcome →
        isSameUTCDay parse a.timestamp now = true) ∧
    (∀ (parse : String → Option UTCDate) (now : UTCDate) (outcome : SheetReadOutcome),
      managerAlerts parse now (some "all") outcome =
        getRecentAlertsFromSheet 50 outcome) := by
  refine ⟨?_, ?_, ?_, ?_, ?_, ?_, ?_⟩
  · intro limit
    rfl
  · intro limit
    rfl
  · exact getRecent_ok_eq
  · intro limit rows hlim
    rw [getRecent_ok_eq limit rows hlim, List.length_take]
    exact Nat.min_le_left _ _
  · exact managerAlerts_today_eq
  · intro parse now outcome a ha
    rw [managerAlerts_today_eq] at ha
    exact (List.mem_filter.mp ha).2
  · intro parse now outcome
    have hc : ((rangeParamOf (some "all")) == "all") = true := by decide
    simp [managerAlerts, hc]

/-- Witness for C4 (amended): with a two-row store and `limit = 1`, the
fetch returns exactly the later row. -/
theorem recent_and_range_filter_witness :
    getRecentAlertsFromSheet 1 (SheetReadOutcome.ok [["t1"], ["t2"]]) =
      [rowToEvent ["t2"]] :=
  (recent_and_range_filter.2.2.1 1 [["t1"], ["t2"]] (by decide)).trans (by decide)

/-! ## Claim about the checklist view -/

lemma mem_filterToday {parse : String → Option UTCDate} {now : UTCDate}
    {l : List AlertEvent} {a : AlertEvent} (h : a ∈ filterToday parse now l) :
    isSameUTCDay parse a.timestamp now = true := by
  simp only [filterToday] at h
  exact (List.mem_filter.mp h).2

/-- Claim C5 (confirmed): the checklist keeps, of the recent events (fetch
limit 200), only those on the current UTC day whose status text matches the
low/running/out/empty/critical pattern case-insensitively, and deduplicates
by the (item, location) pair keeping the first match in the newest-first
ordering: for every key, the checklist's entries with that key are exactly
the first entry with that key of the filtered newest-first list — so two
events with the same (item, location) both matching "low" yield exactly one
checklist entry, the most recent one. -/
theorem checklist_filter_dedup :
    ∀ (parse : String → Option UTCDate) (now : UTCDate) (outcome : SheetReadOutcome),
      (∀ k : String,
        (checklistItems parse now outcome).filter (fun a => checklistKey a == k) =
          (((filterToday parse now (getRecentAlertsFromSheet 200 outcome)).filter
              (fun a => matchesLowPattern a.qty)).filter
            (fun a => checklistKey a == k)).take 1) ∧
      (∀ a ∈ checklistItems parse now outcome,
        isSameUTCDay parse a.timestamp now = true ∧ matchesLowPattern a.qty = true) := by
  intro parse now outcome
  constructor
  · intro k
    simp only [checklistItems]
    rw [dedupGo_filter k []]
    simp
  · intro a ha
    simp only [checklistItems] at ha
    have h1 := mem_dedupGo [] _ ha
    have h2 := List.mem_filter.mp h1
    exact ⟨mem_filterToday h2.1, h2.2⟩

/-- Witness for C5: a concrete checklist built from two same-day "Low"
events for the same (item, location); the checked member is on the current
UTC day and matches the low pattern. -/
theorem checklist_filter_dedup_witness :
    isSameUTCDay (fun _ => some ⟨2025, 0, 1⟩) "t2" ⟨2025, 0, 1⟩ = true ∧
    matchesLowPattern "Low" = true := by
  have h := (checklist_filter_dedup (fun _ => some ⟨2025, 0, 1⟩) ⟨2025, 0, 1⟩
      (SheetReadOutcome.ok [["t1", "Milk", "Low", "Walk-in", "", ""],
        ["t2", "Milk", "Low", "Walk-in", "", ""]])).2
      (rowToEvent ["t2", "Milk", "Low", "Walk-in", "", ""]) (by decide)
  simpa [rowToEvent] using h

/-! ## Claim about malformed timestamps -/

/-- Claim C10 (confirmed): a timestamp string that does not parse to a
valid date makes `isSameUTCDay` return `false` for any reference date (the
function is total, so it never throws), and consequently a logged row with
an unparseable timestamp is excluded from the `range=today` manager view,
the today CSV export, and the checklist. -/
theorem malformed_timestamp_excluded :
    (∀ (parse : String → Option UTCDate) (ref : UTCDate) (ts : String),
      parse ts = none → isSameUTCDay parse ts ref = false) ∧
    (∀ (parse : String → Option UTCDate) (now : UTCDate) (outcome : SheetReadOutcome)
      (a : AlertEvent), parse a.timestamp = none →
        a ∉ managerAlerts parse now (some "today") outcome ∧
        a ∉ managerCsvAlerts parse now (some "today") outcome ∧
        a ∉ checklistItems parse now outcome) := by
  constructor
  · intro parse ref ts h
    simp [isSameUTCDay, h]
  · intro parse now outcome a h
    have hfalse : isSameUTCDay parse a.timestamp now = false := by
      simp [isSameUTCDay, h]
    refine ⟨?_, ?_, ?_⟩
    · intro hmem
      rw [managerAlerts_today_eq] at hmem
      rw [mem_filterToday hmem] at hfalse
      simp at hfalse
    · intro hmem
      have hc : ((rangeParamOf (some "today")) != "all") = true := by decide
      rw [show managerCsvAlerts parse now (some "today") outcome =
          filterToday parse now (getRecentAlertsFromSheet 500 outcome) from by
            simp [managerCsvAlerts, hc]] at hmem
      rw [mem_filterToday hmem] at hfalse
      simp at hfalse
    · intro hmem
      simp only [checklistItems] at hmem
      have h1 := mem_dedupGo [] _ hmem
      have h2 := List.mem_filter.mp h1
      rw [mem_filterToday h2.1] at hfalse
      simp at hfalse

/-- Witness for C10: a row whose timestamp no date parse accepts is absent
from the checklist built over it. -/
theorem malformed_timestamp_excluded_witness :
    rowToEvent ["garbage", "Milk", "Low", "", "", ""] ∉
      checklistItems (fun _ => none) ⟨2025, 0, 1⟩
        (SheetReadOutcome.ok [["garbage", "Milk", "Low", "", "", ""]]) :=
  ((malformed_timestamp_excluded.2 (fun _ => none) ⟨2025, 0, 1⟩
    (SheetReadOutcome.ok [["garbage", "Milk", "Low", "", "", ""]])
    (rowToEvent ["garbage", "Milk", "Low", "", "", ""]) rfl)).2.2

/-! ## Claim about the text normalizer -/

/-- Counterexample to claim C7 as stated: on the word `(abc` the code's
regex `/\w\S*/g` starts its match at the first word character, so the `a`
is uppercased (`(Abc`), while the claimed rule — uppercase the first letter
of each whitespace-delimited word and lowercase the rest of that word —
leaves the word's first character `(` alone and lowercases the rest
(`(abc`). -/
theorem prettify_spec_claim_cex :
    prettifyText "(abc" = "(Abc" ∧ specNormalize "(abc" = "(abc" ∧
    prettifyText "(abc" ≠ specNormalize "(abc" := by
  decide

/-- Claim C7 (amended): `prettifyText` replaces underscores with spaces and
retitles each token by uppercasing its first word character (ASCII letter,
digit or underscore) and lowercasing the non-space characters after it,
leaving characters before the first word character unchanged; it is total,
empty input yields the empty string, and the claim's examples hold.  In
particular it splits at spaces, and on a whitespace-delimited word made of
word characters it coincides exactly with capitalize-the-word. -/
theorem prettify_rule :
    prettifyText "whole_milk" = "Whole Milk" ∧
    prettifyText "" = "" ∧
    prettifyText "ALREADY CAPS" = "Already Caps" ∧
    (∀ s t : String,
      prettifyText (s ++ " " ++ t) = prettifyText s ++ " " ++ prettifyText t) ∧
    (∀ w : String, w ≠ "" →
      (∀ c ∈ w.data, isWordChar c = true ∧ isJsSpace c = false ∧ c ≠ '_') →
      prettifyText w = capitalizeWord w) := by
  refine ⟨by decide, by decide, by decide, ?_, ?_⟩
  · intro s t
    apply String.ext
    have hsp : (" " : String).data = [' '] := rfl
    simp only [prettifyText, String.data_append, hsp, List.map_append,
      List.map_cons, List.map_nil, List.append_assoc, List.singleton_append,
      show underscoreToSpace ' ' = ' ' from rfl]
    exact titleScanAux_append_space _ false _
  · intro w hw hchars
    cases hdata : w.data with
    | nil =>
      exact absurd (String.ext (hdata.trans rfl)) hw
    | cons c cs =>
      have hmemc : c ∈ w.data := hdata ▸ List.mem_cons_self c cs
      have hc := hchars c hmemc
      apply String.ext
      simp only [prettifyText, capitalizeWord, hdata]
      rw [map_underscoreToSpace_id (c :: cs)
        (fun d hd => (hchars d (hdata ▸ hd)).2.2)]
      rw [titleScanAux, if_neg (by simp [hc.2.1]), if_neg (by simp),
        if_pos hc.1]
      rw [titleScanAux_inWord cs (fun d hd =>
        (hchars d (hdata ▸ List.mem_cons_of_mem c hd)).2.1)]
      rfl

/-- Witness for C7 (amended): the all-letter word `milk` is capitalized
exactly as the word rule says. -/
theorem prettify_rule_witness :
    prettifyText "milk" = capitalizeWord "milk" :=
  prettify_rule.2.2.2.2 "milk" (by decide) (by decide)
